import Mathlib

/-!
Verification of the worker-orchestration logic of `src/mastering_ui.py`
(a Qt GUI shell around an external mastering CLI).

The embedding models:
  * the four worker signals (`status`, `progress`, `error`, `finished`) as an
    event type, and each worker `run` method as a pure function returning the
    list of events it emits, in emission order, together with the list of
    external commands (argument vectors) it hands to `subprocess.run`;
  * the outcome of each `subprocess.run` call as an oracle value
    (`ok` / `CalledProcessError` with captured stderr / other exception);
  * the filesystem facts the code consults (`os.listdir` result,
    `os.path.isdir`, output-dir existence, `os.makedirs` success) as explicit
    parameters;
  * Python's `finally` semantics: the `finally` block runs even after a
    `return` inside `try`, so the trailing `finished` emit is appended on
    every path, including the early-return paths that already emitted one;
  * numeric progress `int(((i+1)/total)*100)` by an exact model of its
    IEEE-754 binary64 evaluation: the integer division `(i+1)/total` is
    correctly rounded (nearest, ties to even) to a 53-bit significand, the
    product with 100 is correctly rounded again, and the result is truncated
    toward zero — all carried out in exact integer arithmetic with an
    unbounded exponent (overflow and underflow are unreachable at any batch
    size, so no clamping is modelled);
  * the POSIX path helpers (`os.path.join` on two arguments,
    `os.path.basename`, `os.path.splitext`) and `str.lower` (ASCII range) /
    `str.endswith` over codepoint sequences.
-/

namespace SMG

/-- Worker notification events, one per Qt signal of `WorkerSignals`:
`status(str)`, `progress(int)`, `error(str)`, `finished`. -/
inductive Event where
  | status (msg : String)
  | progress (pct : Nat)
  | error (msg : String)
  | finished
  deriving DecidableEq, Repr

/-- Outcome of one `subprocess.run(..., check=True)` call: normal exit,
`CalledProcessError` carrying the captured stderr, or any other raised
exception carrying its string rendering. -/
inductive RunOutcome where
  | ok
  | fail (stderr : String)
  | exc (msg : String)
  deriving DecidableEq, Repr

/-- Lowercasing of a string as `str.lower` acts on the ASCII range
(the filenames the claims concern are ASCII). -/
def lowerStr (s : String) : String :=
  ⟨s.data.map Char.toLower⟩

/-- Suffix test over codepoint sequences, as Python `str.endswith`. -/
def strEndsWith (s suff : String) : Bool :=
  suff.data.isSuffixOf s.data

/-- Codepoint-sequence test matching Python `str.startswith`. -/
def strStartsWith (s pre : String) : Bool :=
  pre.data.isPrefixOf s.data

/-- Two-argument `os.path.join` (POSIX): an absolute second component wins;
otherwise insert a separator unless the first part is empty or already ends
with one. -/
def joinPath (a b : String) : String :=
  if strStartsWith b "/" then b
  else if a = "" ∨ strEndsWith a "/" then a ++ b
  else a ++ "/" ++ b

/-- The `os.path.basename` of a POSIX path: everything after the last slash. -/
def basename (p : String) : String :=
  ⟨(p.data.reverse.takeWhile (fun c => c ≠ '/')).reverse⟩

/-- The `os.path.splitext` of a slash-free filename: split at the last dot,
except that a dot with only dots before it (leading-dot names such as
`.bashrc`) yields no extension. -/
def splitExt (s : String) : String × String :=
  let cs := s.data
  match (cs.reverse.findIdx? (fun c => c = '.')).map (fun j => cs.length - 1 - j) with
  | none => (s, "")
  | some d =>
    if (cs.take d).all (fun c => c = '.') then (s, "")
    else (⟨cs.take d⟩, ⟨cs.drop d⟩)

/-- The directory-scan filter of `BatchMasterWorker.run`:
`f.lower().endswith((".wav", ".flac", ".aiff", ".mp3"))`. -/
def isAudioName (f : String) : Bool :=
  ([".wav", ".flac", ".aiff", ".mp3"] : List String).any
    (fun e => strEndsWith (lowerStr f) e)

/-- Binary digit count of `n` (0 for 0), by fuel recursion; the fuel `n`
always suffices since the digit count of a positive `n` is at most `n`. -/
def bitlenAux : Nat → Nat → Nat
  | 0, _ => 0
  | fuel + 1, n => if n = 0 then 0 else bitlenAux fuel (n / 2) + 1

/-- Binary digit count of a natural number (0 for 0). -/
def bitlen (n : Nat) : Nat :=
  bitlenAux n n

/-- Round-to-nearest, ties-to-even, of the fraction `p / q` (for `q > 0`). -/
def rneDiv (p q : Nat) : Nat :=
  let d := p / q
  let r := p % q
  if 2 * r < q then d
  else if q < 2 * r then d + 1
  else if d % 2 = 0 then d else d + 1

/-- Correctly rounded (round-to-nearest, ties-to-even) binary64 quotient of
the naturals `a / b` (`b > 0`), as a significand/exponent pair whose value
is `m * 2^e`: the scaling exponent `t` places `a*2^t/b` in `[2^52, 2^54)`,
and the upper binade is rounded one position higher.  The exponent is
unbounded: overflow and underflow of binary64 are not modelled, as they are
unreachable for the ratios the program forms. -/
def floatDiv (a b : Nat) : Nat × Int :=
  let t : Int := 53 + (bitlen b : Int) - (bitlen a : Int)
  let c : Nat := if 0 ≤ t then a * 2 ^ t.toNat else a
  let d : Nat := if 0 ≤ t then b else b * 2 ^ (-t).toNat
  if c / d < 2 ^ 53 then (rneDiv c d, -t)
  else (rneDiv c (2 * d), -t + 1)

/-- Correctly rounded (round-to-nearest, ties-to-even) reduction of the
exact product significand `p` (value `p * 2^e`) back to 53 bits, as a
binary64 multiplication leaves it. -/
def floatRound53 (p : Nat) (e : Int) : Nat × Int :=
  let l := bitlen p
  if l ≤ 53 then (p, e)
  else (rneDiv p (2 ^ (l - 53)), e + (l - 53))

/-- Truncation toward zero of the nonnegative value `m * 2^e`, as Python's
`int()` applied to a float. -/
def floatTrunc (m : Nat) (e : Int) : Nat :=
  if 0 ≤ e then m * 2 ^ e.toNat else m / 2 ^ (-e).toNat

/-- Exact model of the Python expression `int((i / n) * 100)` under IEEE-754
binary64 arithmetic: correctly rounded true division, correctly rounded
multiplication by 100, truncation toward zero.  (`n = 0` is mapped to 0; the
program never reaches the division with `total_files = 0`.) -/
def pyProgressPct (i n : Nat) : Nat :=
  if n = 0 then 0
  else
    let q := floatDiv i n
    let p := floatRound53 (q.1 * 100) q.2
    floatTrunc p.1 p.2

/-- Worker state for a batch job, as the `BatchMasterWorker` constructor
stores it (`ref_file`, `input_dir`, `input_files`, `output_dir`,
`bit_depth`). -/
structure BatchMasterWorker where
  ref_file : String
  input_dir : String
  input_files : List String
  output_dir : String
  bit_depth : String
  deriving DecidableEq, Repr

/-- The argument vector the batch loop builds for one input file:
`["python3", CLI_SCRIPT_PATH, "-b", bit_depth, input_file, ref_file,
output_file]` with
`output_file = os.path.join(output_dir, f"{base} (Mastered).flac")`.
`cli` stands for the startup-computed `CLI_SCRIPT_PATH`. -/
def mkCommand (cli : String) (w : BatchMasterWorker) (full_filepath : String) :
    List String :=
  let filename := basename full_filepath
  let base := (splitExt filename).1
  let output_file := joinPath w.output_dir (base ++ " (Mastered).flac")
  ["python3", cli, "-b", w.bit_depth, full_filepath, w.ref_file, output_file]

/-- The `for i, full_filepath in enumerate(files_to_process)` loop of
`BatchMasterWorker.run`, together with the `except` arms that terminate it.
`oracle j` is the outcome of the subprocess call for the file at global
index `j`; `i` is the index of the head of `files`; `total` is
`total_files`.  Returns the events emitted from the loop onward (the
`finally` emit excluded) and the commands actually passed to
`subprocess.run`. -/
def batchLoop (cli : String) (w : BatchMasterWorker) (oracle : Nat → RunOutcome)
    (total : Nat) : Nat → List String → List Event × List (List String)
  | _, [] =>
    ([Event.status ("Batch complete! " ++ toString total ++ " files mastered.")], [])
  | i, full_filepath :: rest =>
    let filename := basename full_filepath
    let cmd := mkCommand cli w full_filepath
    let pre : List Event :=
      [Event.status ("Processing " ++ toString (i + 1) ++ "/" ++ toString total
          ++ ": " ++ filename),
       Event.progress (pyProgressPct (i + 1) total)]
    match oracle i with
    | RunOutcome.ok =>
      let r := batchLoop cli w oracle total (i + 1) rest
      (pre ++ r.1, cmd :: r.2)
    | RunOutcome.fail stderr =>
      (pre ++ [Event.error ("Failed on file: " ++ filename ++ "\n\n" ++ stderr),
               Event.status "Error! Check terminal for details."], [cmd])
    | RunOutcome.exc msg =>
      (pre ++ [Event.error ("An error occurred:\n\n" ++ msg),
               Event.status "Error! Check terminal for details."], [cmd])

/-- Input resolution of `BatchMasterWorker.run`: a truthy (non-empty)
`input_files` list is used as is; otherwise a truthy (non-empty) `input_dir`
is scanned non-recursively, keeping entries whose lowercased name ends in an
accepted audio extension, each joined to the directory; `none` marks the two
early-error paths (empty scan, no input source). -/
def resolvedFiles (w : BatchMasterWorker) (listing : List String) :
    Option (List String) :=
  if w.input_files ≠ [] then some w.input_files
  else if w.input_dir ≠ "" then
    let found := (listing.filter isAudioName).map (joinPath w.input_dir)
    if found = [] then none else some found
  else none

/-- The whole `BatchMasterWorker.run` body: resolve the input source, loop
over the files, and let the `finally` block append one `finished` event on
every path (also after the early `return`s, which already emitted one).
`listing` is the `os.listdir(input_dir)` result. -/
def BatchMasterWorker.run (cli : String) (w : BatchMasterWorker)
    (listing : List String) (oracle : Nat → RunOutcome) :
    List Event × List (List String) :=
  let core : List Event × List (List String) :=
    if w.input_files ≠ [] then
      batchLoop cli w oracle w.input_files.length 0 w.input_files
    else if w.input_dir ≠ "" then
      let found := (listing.filter isAudioName).map (joinPath w.input_dir)
      if found = [] then
        ([Event.error "No audio files found in the input folder.",
          Event.finished], [])
      else
        batchLoop cli w oracle found.length 0 found
    else
      ([Event.error "No input source provided.", Event.finished], [])
  (core.1 ++ [Event.finished], core.2)

/-- The `SingleMasterWorker.run` body: a processing status, then the
subprocess call whose outcome selects the success status or one of the two
`except` arms, then the `finally` emit of `finished`. -/
def SingleMasterWorker.run (outcome : RunOutcome) : List Event :=
  [Event.status "Processing... (this can take a while)"] ++
  (match outcome with
   | RunOutcome.ok => [Event.status "Success! File mastered."]
   | RunOutcome.fail stderr =>
     [Event.error ("An error occurred:\n\n" ++ stderr),
      Event.status "Error! Check terminal for details."]
   | RunOutcome.exc msg =>
     [Event.error ("An unexpected error occurred:\n\n" ++ msg),
      Event.status "Error! Check terminal for details."]) ++
  [Event.finished]

/-- Result of a run-button handler: a local warning dialog (no worker), or a
started worker. -/
inductive SingleAction where
  | warnMissing
  | warnBitDepth
  | startWorker (command : List String)
  deriving DecidableEq, Repr

/-- The `MainWindow.run_single_master` handler: require all four fields
truthy, require the bit-depth literal, then build the command and start a
`SingleMasterWorker` with it. -/
def MainWindow.run_single_master (cli ref_file target_file output_file bit_depth : String) :
    SingleAction :=
  if ref_file = "" ∨ target_file = "" ∨ output_file = "" ∨ bit_depth = "" then
    SingleAction.warnMissing
  else if bit_depth ≠ "16" ∧ bit_depth ≠ "24" ∧ bit_depth ≠ "32" then
    SingleAction.warnBitDepth
  else
    SingleAction.startWorker
      ["python3", cli, "-b", bit_depth, target_file, ref_file, output_file]

/-- Result of the batch run-button handler. -/
inductive BatchAction where
  | warnMissingInput
  | warnMissingFields
  | warnBitDepth
  | errMakedirs
  | startWorker (w : BatchMasterWorker)
  deriving DecidableEq, Repr

/-- The `MainWindow.run_batch_master` handler: pick the input source (a
truthy selected-files list wins, else a directory that `os.path.isdir`
accepts, else warn), require the remaining fields truthy, require the
bit-depth literal, create the output directory when missing (`mkOk` is the
`os.makedirs` success), then start a `BatchMasterWorker`. -/
def MainWindow.run_batch_master (ref_file input_display_text : String)
    (input_files_list : List String) (output_dir bit_depth : String)
    (isdir exists_out mkOk : Bool) : BatchAction :=
  let src : Option (String × List String) :=
    if input_files_list ≠ [] then some ("", input_files_list)
    else if isdir then some (input_display_text, [])
    else none
  match src with
  | none => BatchAction.warnMissingInput
  | some (input_dir, input_files) =>
    if ref_file = "" ∨ output_dir = "" ∨ bit_depth = "" then
      BatchAction.warnMissingFields
    else if bit_depth ≠ "16" ∧ bit_depth ≠ "24" ∧ bit_depth ≠ "32" then
      BatchAction.warnBitDepth
    else if ¬exists_out ∧ ¬mkOk then
      BatchAction.errMakedirs
    else
      BatchAction.startWorker ⟨ref_file, input_dir, input_files, output_dir, bit_depth⟩

/-- Number of `finished` events in a trace. -/
def countFinished : List Event → Nat
  | [] => 0
  | Event.finished :: rest => countFinished rest + 1
  | _ :: rest => countFinished rest

/-- The progress percentages of a trace, in emission order. -/
def progressValues (evs : List Event) : List Nat :=
  evs.filterMap (fun e => match e with
    | Event.progress p => some p
    | _ => none)

/-- The error messages of a trace, in emission order. -/
def errorEvents (evs : List Event) : List String :=
  evs.filterMap (fun e => match e with
    | Event.error m => some m
    | _ => none)

/-- Rounding to the nearest integer of `a / b` (round half up), modelling the
word "round" of the specification's progress formula `round(i/n*100)`. -/
def specRoundPct (i n : Nat) : Nat :=
  (2 * (i * 100) + n) / (2 * n)

/-! Helper lemmas about the event projections and the batch loop. -/

theorem countFinished_append (l1 l2 : List Event) :
    countFinished (l1 ++ l2) = countFinished l1 + countFinished l2 := by
  induction l1 with
  | nil => simp [countFinished]
  | cons e rest ih =>
    cases e <;> simp [countFinished, ih]
    omega

theorem batchLoop_no_finished (cli : String) (w : BatchMasterWorker)
    (oracle : Nat → RunOutcome) (total : Nat) :
    ∀ (fs : List String) (i : Nat),
      countFinished (batchLoop cli w oracle total i fs).1 = 0 := by
  intro fs
  induction fs with
  | nil => intro i; simp [batchLoop, countFinished]
  | cons f rest ih =>
    intro i
    cases h : oracle i <;>
      simp [batchLoop, h, countFinished_append, countFinished, ih]

theorem batchLoop_cmds_take (cli : String) (w : BatchMasterWorker)
    (oracle : Nat → RunOutcome) (total : Nat) :
    ∀ (fs : List String) (i : Nat),
      ∃ m, (batchLoop cli w oracle total i fs).2 =
        (fs.take m).map (mkCommand cli w) := by
  intro fs
  induction fs with
  | nil => intro i; exact ⟨0, rfl⟩
  | cons f rest ih =>
    intro i
    cases h : oracle i with
    | ok =>
      obtain ⟨m, hm⟩ := ih (i + 1)
      exact ⟨m + 1, by simp [batchLoop, h, hm]⟩
    | fail stderr => exact ⟨1, by simp [batchLoop, h, mkCommand]⟩
    | exc msg => exact ⟨1, by simp [batchLoop, h, mkCommand]⟩

theorem run_resolved (cli : String) (w : BatchMasterWorker)
    (listing : List String) (oracle : Nat → RunOutcome) (fs : List String)
    (h : resolvedFiles w listing = some fs) :
    BatchMasterWorker.run cli w listing oracle =
      ((batchLoop cli w oracle fs.length 0 fs).1 ++ [Event.finished],
       (batchLoop cli w oracle fs.length 0 fs).2) := by
  by_cases h1 : w.input_files = []
  · by_cases h2 : w.input_dir = ""
    · simp [resolvedFiles, h1, h2] at h
    · by_cases h3 : (listing.filter isAudioName).map (joinPath w.input_dir) = []
      · simp [resolvedFiles, h1, h2, h3] at h
      · simp only [resolvedFiles, h1, h2, h3, ne_eq, not_true_eq_false,
          if_false, if_true, not_false_eq_true] at h
        simp only [Option.some.injEq] at h
        simp [BatchMasterWorker.run, h1, h2, h3, ← h]
  · simp only [resolvedFiles, h1, ne_eq, not_false_eq_true, if_true,
      Option.some.injEq] at h
    simp [BatchMasterWorker.run, h1, ← h]

theorem run_unresolved (cli : String) (w : BatchMasterWorker)
    (listing : List String) (oracle : Nat → RunOutcome)
    (h : resolvedFiles w listing = none) :
    BatchMasterWorker.run cli w listing oracle =
      ([Event.error "No audio files found in the input folder.",
        Event.finished, Event.finished], []) ∨
    BatchMasterWorker.run cli w listing oracle =
      ([Event.error "No input source provided.",
        Event.finished, Event.finished], []) := by
  by_cases h1 : w.input_files = []
  · by_cases h2 : w.input_dir = ""
    · right; simp [BatchMasterWorker.run, h1, h2]
    · by_cases h3 : (listing.filter isAudioName).map (joinPath w.input_dir) = []
      · left; simp [BatchMasterWorker.run, h1, h2, h3]
      · simp [resolvedFiles, h1, h2, h3] at h
  · simp [resolvedFiles, h1] at h

theorem resolvedFiles_pos (w : BatchMasterWorker) (listing : List String)
    (fs : List String) (h : resolvedFiles w listing = some fs) :
    0 < fs.length := by
  rw [List.length_pos]
  by_cases h1 : w.input_files = []
  · by_cases h2 : w.input_dir = ""
    · simp [resolvedFiles, h1, h2] at h
    · by_cases h3 : (listing.filter isAudioName).map (joinPath w.input_dir) = []
      · simp [resolvedFiles, h1, h2, h3] at h
      · simp only [resolvedFiles, h1, h2, h3, ne_eq, not_true_eq_false,
          if_false, if_true, not_false_eq_true, Option.some.injEq] at h
        exact h ▸ h3
  · simp only [resolvedFiles, h1, ne_eq, not_false_eq_true, if_true,
      Option.some.injEq] at h
    exact h ▸ h1

theorem run_cmds (cli : String) (w : BatchMasterWorker) (listing : List String)
    (oracle : Nat → RunOutcome) :
    ∃ m, (BatchMasterWorker.run cli w listing oracle).2 =
      (((resolvedFiles w listing).getD []).take m).map (mkCommand cli w) := by
  cases h : resolvedFiles w listing with
  | none =>
    rcases run_unresolved cli w listing oracle h with h' | h' <;>
      exact ⟨0, by simp [h']⟩
  | some fs =>
    obtain ⟨m, hm⟩ := batchLoop_cmds_take cli w oracle fs.length fs 0
    exact ⟨m, by simp [run_resolved cli w listing oracle fs h, hm]⟩

theorem batchLoop_ok_progress (cli : String) (w : BatchMasterWorker)
    (oracle : Nat → RunOutcome) (total : Nat)
    (hok : ∀ j, oracle j = RunOutcome.ok) :
    ∀ (fs : List String) (i : Nat),
      progressValues (batchLoop cli w oracle total i fs).1 =
        (List.range fs.length).map (fun k => pyProgressPct (i + k + 1) total) := by
  intro fs
  induction fs with
  | nil => intro i; simp [batchLoop, progressValues]
  | cons f rest ih =>
    intro i
    simp only [batchLoop, hok i]
    simp only [progressValues, List.filterMap_append, List.filterMap_cons,
      List.filterMap_nil]
    rw [show (List.filterMap (fun e => match e with
          | Event.progress p => some p | _ => none)
          (batchLoop cli w oracle total (i + 1) rest).1) =
        progressValues (batchLoop cli w oracle total (i + 1) rest).1 from rfl,
      ih (i + 1)]
    rw [List.length_cons, List.range_succ_eq_map, List.map_cons, List.map_map]
    simp only [List.singleton_append, Nat.add_zero, List.cons.injEq]
    refine ⟨trivial, ?_⟩
    exact List.map_congr_left fun k _ => by
      have h2 : i + 1 + k + 1 = i + (k + 1) + 1 := by omega
      simp [Function.comp, Nat.succ_eq_add_one, h2]

theorem progressValues_append (l1 l2 : List Event) :
    progressValues (l1 ++ l2) = progressValues l1 ++ progressValues l2 :=
  List.filterMap_append l1 l2 _

theorem errorEvents_append (l1 l2 : List Event) :
    errorEvents (l1 ++ l2) = errorEvents l1 ++ errorEvents l2 :=
  List.filterMap_append l1 l2 _

theorem errorEvents_cons_status (s : String) (l : List Event) :
    errorEvents (Event.status s :: l) = errorEvents l := rfl

theorem errorEvents_cons_progress (p : Nat) (l : List Event) :
    errorEvents (Event.progress p :: l) = errorEvents l := rfl

theorem errorEvents_cons_error (m : String) (l : List Event) :
    errorEvents (Event.error m :: l) = m :: errorEvents l := rfl

theorem progressValues_cons_status (s : String) (l : List Event) :
    progressValues (Event.status s :: l) = progressValues l := rfl

theorem progressValues_cons_progress (p : Nat) (l : List Event) :
    progressValues (Event.progress p :: l) = p :: progressValues l := rfl

theorem batchLoop_fail (cli : String) (w : BatchMasterWorker)
    (oracle : Nat → RunOutcome) (total : Nat) (stderr : String) :
    ∀ (fs : List String) (i k : Nat) (hk : k < fs.length),
      (∀ j, j < k → oracle (i + j) = RunOutcome.ok) →
      oracle (i + k) = RunOutcome.fail stderr →
      (batchLoop cli w oracle total i fs).2 =
        (fs.take (k + 1)).map (mkCommand cli w) ∧
      errorEvents (batchLoop cli w oracle total i fs).1 =
        ["Failed on file: " ++ basename (fs.get ⟨k, hk⟩) ++ "\n\n" ++ stderr] ∧
      ∃ E, (batchLoop cli w oracle total i fs).1 =
        E ++ [Event.error ("Failed on file: " ++ basename (fs.get ⟨k, hk⟩)
            ++ "\n\n" ++ stderr),
          Event.status "Error! Check terminal for details."] := by
  intro fs
  induction fs with
  | nil => intro i k hk; exact absurd hk (by simp)
  | cons f rest ih =>
    intro i k hk hok hfail
    cases k with
    | zero =>
      have h0 : oracle i = RunOutcome.fail stderr := by simpa using hfail
      refine ⟨?_, ?_, ?_⟩
      · simp [batchLoop, h0, List.take_succ_cons]
      · simp [batchLoop, h0, errorEvents]
      · refine ⟨[Event.status ("Processing " ++ toString (i + 1) ++ "/"
            ++ toString total ++ ": " ++ basename f),
          Event.progress (pyProgressPct (i + 1) total)], ?_⟩
        simp [batchLoop, h0]
    | succ k' =>
      have h0 : oracle i = RunOutcome.ok := by
        have := hok 0 (Nat.succ_pos k')
        simpa using this
      have hk' : k' < rest.length := by
        simpa [Nat.succ_lt_succ_iff] using hk
      have hok' : ∀ j, j < k' → oracle (i + 1 + j) = RunOutcome.ok := by
        intro j hj
        have harr : i + 1 + j = i + (j + 1) := by omega
        rw [harr]
        exact hok (j + 1) (by omega)
      have hfail' : oracle (i + 1 + k') = RunOutcome.fail stderr := by
        have harr : i + 1 + k' = i + (k' + 1) := by omega
        rw [harr]
        exact hfail
      obtain ⟨hc, he, E, hE⟩ := ih (i + 1) k' hk' hok' hfail'
      refine ⟨?_, ?_, ?_⟩
      · simp [batchLoop, h0, hc, List.take_succ_cons]
      · simp [batchLoop, h0, errorEvents_cons_status, errorEvents_cons_progress,
          he]
      · refine ⟨[Event.status ("Processing " ++ toString (i + 1) ++ "/"
            ++ toString total ++ ": " ++ basename f),
          Event.progress (pyProgressPct (i + 1) total)] ++ E, ?_⟩
        simp [batchLoop, h0, hE]

theorem batchLoop_ok_shape (cli : String) (w : BatchMasterWorker)
    (oracle : Nat → RunOutcome) (total : Nat)
    (hok : ∀ j, oracle j = RunOutcome.ok) :
    ∀ (fs : List String) (i : Nat),
      ∃ E, (batchLoop cli w oracle total i fs).1 =
        E ++ [Event.status ("Batch complete! " ++ toString total
          ++ " files mastered.")] := by
  intro fs
  induction fs with
  | nil => intro i; exact ⟨[], rfl⟩
  | cons f rest ih =>
    intro i
    obtain ⟨E, hE⟩ := ih (i + 1)
    refine ⟨[Event.status ("Processing " ++ toString (i + 1) ++ "/"
        ++ toString total ++ ": " ++ basename f),
       Event.progress (pyProgressPct (i + 1) total)] ++ E, ?_⟩
    simp [batchLoop, hok i, hE]

theorem floatDiv_self (n : Nat) (hn : 0 < n) : floatDiv n n = (2 ^ 52, -52) := by
  have hd : n * 2 ^ 53 / n = 2 ^ 53 := Nat.mul_div_cancel_left _ hn
  have hr : rneDiv (n * 2 ^ 53) (2 * n) = 2 ^ 52 := by
    have hc : n * 2 ^ 53 = 2 * n * 2 ^ 52 := by ring
    simp only [rneDiv, hc]
    rw [Nat.mul_div_cancel_left _ (by omega : 0 < 2 * n), Nat.mul_mod_right]
    simp [hn]
  have ht : (53 : Int) + (bitlen n : Int) - (bitlen n : Int) = 53 := by omega
  simp only [floatDiv, ht, show ((0 : Int) ≤ 53) = True from by decide, if_true,
    show (53 : Int).toNat = 53 from rfl, hd]
  rw [if_neg (lt_irrefl _), hr]
  norm_num

theorem pyProgressPct_self (n : Nat) (hn : 0 < n) : pyProgressPct n n = 100 := by
  have hne : ¬ n = 0 := by omega
  simp only [pyProgressPct, hne, if_false, floatDiv_self n hn]
  decide

/-- Validation of the binary64 progress model at the float-sensitive points:
under CPython's evaluation of `int((i/n)*100)` the 29th value of a batch of
100 is 28 — the double `29/100` times 100 is just below 29 — equal to the
28th, the 29th of 50 is 57, and the 2nd of 3 is 66; the model reproduces
each, so the emitted sequence is in general neither `round(i/n*100)` nor the
exact floor, and not strictly increasing even for `n ≤ 100`. -/
theorem pyProgressPct_values :
    pyProgressPct 28 100 = 28 ∧ pyProgressPct 29 100 = 28 ∧
    pyProgressPct 29 50 = 57 ∧ pyProgressPct 1 3 = 33 ∧
    pyProgressPct 2 3 = 66 ∧ pyProgressPct 3 3 = 100 := by decide

/-! Claim theorems. -/

/-- C1 counterexample: on the empty-directory-scan path the batch worker
emits `finished` explicitly before its early `return`, and the `finally`
block then emits it again, so this job sees two `finished` notifications,
refuting "exactly one finished notification is emitted per job on every
exit path". -/
theorem c1_counterexample :
    (BatchMasterWorker.run "mg" ⟨"ref.wav", "d", [], "out", "24"⟩ []
        (fun _ => RunOutcome.ok)).1 =
      [Event.error "No audio files found in the input folder.",
       Event.finished, Event.finished] ∧
    ¬ countFinished (BatchMasterWorker.run "mg" ⟨"ref.wav", "d", [], "out", "24"⟩
        [] (fun _ => RunOutcome.ok)).1 = 1 := by decide

/-- C1 (amended): a single job emits exactly one `finished`, always last; a
batch job always ends with `finished`, emitted exactly once when the input
source resolves to a file list, but twice on the early-error paths (empty
scan, no input source), where the explicit emit is followed by the `finally`
emit. -/
theorem c1_finished_terminal :
    (∀ o : RunOutcome,
       countFinished (SingleMasterWorker.run o) = 1 ∧
       (SingleMasterWorker.run o).getLast? = some Event.finished) ∧
    (∀ (cli : String) (w : BatchMasterWorker) (listing : List String)
       (oracle : Nat → RunOutcome),
       (BatchMasterWorker.run cli w listing oracle).1.getLast? =
         some Event.finished ∧
       countFinished (BatchMasterWorker.run cli w listing oracle).1 =
         if (resolvedFiles w listing).isSome then 1 else 2) := by
  constructor
  · intro o
    cases o <;> exact ⟨rfl, rfl⟩
  · intro cli w listing oracle
    constructor
    · cases h : resolvedFiles w listing with
      | none =>
        rcases run_unresolved cli w listing oracle h with h' | h' <;> rw [h'] <;> rfl
      | some fs =>
        rw [run_resolved cli w listing oracle fs h]
        exact List.getLast?_concat _
    · cases h : resolvedFiles w listing with
      | none =>
        rcases run_unresolved cli w listing oracle h with h' | h' <;>
          rw [h'] <;> simp [countFinished]
      | some fs =>
        rw [run_resolved cli w listing oracle fs h]
        simp [countFinished_append, batchLoop_no_finished, countFinished]

/-- C2 counterexample: for a batch of three files with all calls succeeding,
the second progress value emitted is `int((2/3)*100) = 66`, while the
claimed `round(2/3*100)` is `67` — the code truncates, it does not round. -/
theorem c2_counterexample :
    progressValues (BatchMasterWorker.run "mg"
        ⟨"ref.wav", "", ["a.wav", "b.wav", "c.wav"], "out", "24"⟩ []
        (fun _ => RunOutcome.ok)).1 = [33, 66, 100] ∧
    specRoundPct 2 3 = 67 ∧ ¬ (66 : Nat) = 67 := by decide

/-- C2 (amended): for a batch whose input resolves to `fs` with every
external call succeeding, the progress notifications are one per file, the
i-th carrying exactly the binary64 evaluation `int((i/n)*100)` — correctly
rounded division and multiplication by 100, then truncation, as
`pyProgressPct` models it exactly — the last value is 100 (since `n/n` is
exactly 1.0), and exactly one `finished` notification is emitted, right
after the final batch-complete status.  The float artifacts recorded in
`pyProgressPct_values` show the sequence is in general neither the claimed
rounding nor strictly increasing. -/
theorem c2_batch_progress (cli : String) (w : BatchMasterWorker)
    (listing : List String) (oracle : Nat → RunOutcome) (fs : List String)
    (h : resolvedFiles w listing = some fs)
    (hok : ∀ j, oracle j = RunOutcome.ok) :
    progressValues (BatchMasterWorker.run cli w listing oracle).1 =
      (List.range fs.length).map (fun k => pyProgressPct (k + 1) fs.length) ∧
    (progressValues (BatchMasterWorker.run cli w listing oracle).1).getLast? =
      some 100 ∧
    countFinished (BatchMasterWorker.run cli w listing oracle).1 = 1 ∧
    ∃ E, (BatchMasterWorker.run cli w listing oracle).1 =
      E ++ [Event.status ("Batch complete! " ++ toString fs.length
          ++ " files mastered."), Event.finished] := by
  have hpos := resolvedFiles_pos w listing fs h
  have hrun := run_resolved cli w listing oracle fs h
  have hprog : progressValues (BatchMasterWorker.run cli w listing oracle).1 =
      (List.range fs.length).map (fun k => pyProgressPct (k + 1) fs.length) := by
    rw [hrun]
    show progressValues ((batchLoop cli w oracle fs.length 0 fs).1
      ++ [Event.finished]) = _
    rw [progressValues_append,
      batchLoop_ok_progress cli w oracle fs.length hok fs 0]
    simp [progressValues, Nat.zero_add]
  refine ⟨hprog, ?_, ?_, ?_⟩
  · rw [hprog]
    obtain ⟨m, hm⟩ : ∃ m, fs.length = m + 1 := ⟨fs.length - 1, by omega⟩
    rw [hm, List.range_succ, List.map_append]
    simp only [List.map_cons, List.map_nil, List.getLast?_concat]
    rw [pyProgressPct_self (m + 1) (Nat.succ_pos m)]
  · rw [hrun]
    show countFinished ((batchLoop cli w oracle fs.length 0 fs).1
      ++ [Event.finished]) = 1
    simp [countFinished_append, batchLoop_no_finished, countFinished]
  · obtain ⟨E, hE⟩ := batchLoop_ok_shape cli w oracle fs.length hok fs 0
    refine ⟨E, ?_⟩
    rw [hrun]
    show (batchLoop cli w oracle fs.length 0 fs).1 ++ [Event.finished] = _
    rw [hE, List.append_assoc]
    rfl

/-- C2 witness: the amended progress property evaluated on a concrete batch
of three explicitly selected files (all calls succeeding). -/
theorem c2_batch_progress_witness :
    progressValues (BatchMasterWorker.run "mg"
        ⟨"r", "", ["a.wav", "b.wav", "c.wav"], "o", "24"⟩ []
        (fun _ => RunOutcome.ok)).1 =
      (List.range (["a.wav", "b.wav", "c.wav"] : List String).length).map
        (fun k => pyProgressPct (k + 1)
          (["a.wav", "b.wav", "c.wav"] : List String).length) :=
  (c2_batch_progress "mg" ⟨"r", "", ["a.wav", "b.wav", "c.wav"], "o", "24"⟩ []
    (fun _ => RunOutcome.ok) ["a.wav", "b.wav", "c.wav"] (by decide)
    (fun _ => rfl)).1

/-- C6: a single job emits exactly one `finished`, as the last notification,
and exactly one of the two outcomes precedes it: the success status with no
error notification, or an error notification carrying the diagnostic text
(the tool's stderr for a `CalledProcessError`, the exception text otherwise)
followed by the generic failure status. -/
theorem c6_single_job_outcome :
    ∀ o : RunOutcome,
      countFinished (SingleMasterWorker.run o) = 1 ∧
      (SingleMasterWorker.run o).getLast? = some Event.finished ∧
      errorEvents (SingleMasterWorker.run o) =
        (match o with
         | RunOutcome.ok => []
         | RunOutcome.fail stderr => ["An error occurred:\n\n" ++ stderr]
         | RunOutcome.exc msg => ["An unexpected error occurred:\n\n" ++ msg]) ∧
      ((SingleMasterWorker.run o =
          [Event.status "Processing... (this can take a while)",
           Event.status "Success! File mastered.", Event.finished] ∧
        errorEvents (SingleMasterWorker.run o) = []) ∨
       (∃ msg, errorEvents (SingleMasterWorker.run o) = [msg] ∧
          SingleMasterWorker.run o =
            [Event.status "Processing... (this can take a while)",
             Event.error msg,
             Event.status "Error! Check terminal for details.",
             Event.finished])) := by
  intro o
  cases o with
  | ok => exact ⟨rfl, rfl, rfl, Or.inl ⟨rfl, rfl⟩⟩
  | fail stderr => exact ⟨rfl, rfl, rfl, Or.inr ⟨_, rfl, rfl⟩⟩
  | exc msg => exact ⟨rfl, rfl, rfl, Or.inr ⟨_, rfl, rfl⟩⟩

/-- C10: a resolved batch file list is never empty — the empty-scan and
no-input-source paths return early and (as the second conjunct shows) emit
no progress at all — so the `total_files` divisor of the progress
computation is at least 1 on every path that reaches it. -/
theorem c10_progress_divisor_positive :
    (∀ (w : BatchMasterWorker) (listing fs : List String),
       resolvedFiles w listing = some fs → 0 < fs.length) ∧
    (∀ (cli : String) (w : BatchMasterWorker) (listing : List String)
       (oracle : Nat → RunOutcome),
       resolvedFiles w listing = none →
       progressValues (BatchMasterWorker.run cli w listing oracle).1 = []) := by
  constructor
  · exact fun w listing fs h => resolvedFiles_pos w listing fs h
  · intro cli w listing oracle h
    rcases run_unresolved cli w listing oracle h with h' | h' <;> rw [h'] <;> rfl

/-- C10 witness: the divisor bound evaluated at a concrete resolved batch. -/
theorem c10_progress_divisor_positive_witness :
    0 < (["a.wav"] : List String).length :=
  c10_progress_divisor_positive.1 ⟨"r", "", ["a.wav"], "o", "24"⟩ [] ["a.wav"]
    (by decide)

/-- C3: when the external tool fails (non-zero exit) on the file at index
`k` of the resolved batch (all earlier calls succeeding), exactly the first
`k+1` commands are ever issued — files after the failing one are never
attempted — and the trace carries exactly one error notification, naming the
failing file's basename and the captured stderr, followed by the generic
failure status and the terminal `finished`. -/
theorem c3_batch_stops_on_failure (cli : String) (w : BatchMasterWorker)
    (listing : List String) (oracle : Nat → RunOutcome) (fs : List String)
    (stderr : String) (k : Nat) (hk : k < fs.length)
    (h : resolvedFiles w listing = some fs)
    (hok : ∀ j, j < k → oracle j = RunOutcome.ok)
    (hfail : oracle k = RunOutcome.fail stderr) :
    (BatchMasterWorker.run cli w listing oracle).2 =
      (fs.take (k + 1)).map (mkCommand cli w) ∧
    errorEvents (BatchMasterWorker.run cli w listing oracle).1 =
      ["Failed on file: " ++ basename (fs.get ⟨k, hk⟩) ++ "\n\n" ++ stderr] ∧
    ∃ E, (BatchMasterWorker.run cli w listing oracle).1 =
      E ++ [Event.error ("Failed on file: " ++ basename (fs.get ⟨k, hk⟩)
          ++ "\n\n" ++ stderr),
        Event.status "Error! Check terminal for details.", Event.finished] := by
  have hrun := run_resolved cli w listing oracle fs h
  have hok0 : ∀ j, j < k → oracle (0 + j) = RunOutcome.ok := by
    intro j hj
    rw [Nat.zero_add]
    exact hok j hj
  have hfail0 : oracle (0 + k) = RunOutcome.fail stderr := by
    rw [Nat.zero_add]
    exact hfail
  obtain ⟨hc, he, E, hE⟩ :=
    batchLoop_fail cli w oracle fs.length stderr fs 0 k hk hok0 hfail0
  refine ⟨?_, ?_, ⟨E, ?_⟩⟩
  · rw [hrun]
    exact hc
  · rw [hrun]
    show errorEvents ((batchLoop cli w oracle fs.length 0 fs).1
      ++ [Event.finished]) = _
    rw [errorEvents_append, he]
    rfl
  · rw [hrun]
    show (batchLoop cli w oracle fs.length 0 fs).1 ++ [Event.finished] = _
    rw [hE, List.append_assoc]
    rfl

/-- C3 witness: a two-file batch whose first call fails; only one command is
issued and the single error names the first file. -/
theorem c3_batch_stops_on_failure_witness :
    (BatchMasterWorker.run "mg" ⟨"r", "", ["a.wav", "b.wav"], "o", "24"⟩ []
        (fun j => if j = 0 then RunOutcome.fail "boom" else RunOutcome.ok)).2 =
      ((["a.wav", "b.wav"] : List String).take 1).map
        (mkCommand "mg" ⟨"r", "", ["a.wav", "b.wav"], "o", "24"⟩) ∧
    errorEvents (BatchMasterWorker.run "mg" ⟨"r", "", ["a.wav", "b.wav"], "o", "24"⟩
        [] (fun j => if j = 0 then RunOutcome.fail "boom" else RunOutcome.ok)).1 =
      ["Failed on file: " ++ basename "a.wav" ++ "\n\n" ++ "boom"] :=
  ⟨(c3_batch_stops_on_failure "mg" ⟨"r", "", ["a.wav", "b.wav"], "o", "24"⟩ []
      (fun j => if j = 0 then RunOutcome.fail "boom" else RunOutcome.ok)
      ["a.wav", "b.wav"] "boom" 0 (by decide) (by decide)
      (fun j hj => absurd hj (by omega)) rfl).1,
   (c3_batch_stops_on_failure "mg" ⟨"r", "", ["a.wav", "b.wav"], "o", "24"⟩ []
      (fun j => if j = 0 then RunOutcome.fail "boom" else RunOutcome.ok)
      ["a.wav", "b.wav"] "boom" 0 (by decide) (by decide)
      (fun j hj => absurd hj (by omega)) rfl).2.1⟩

/-- C4 counterexample: with an empty explicit file list and a directory also
set, the worker does scan the directory (a Python empty list is falsy), so
the resolved files are the scan result, not the supplied (empty) list. -/
theorem c4_counterexample :
    resolvedFiles ⟨"ref.wav", "d", [], "out", "24"⟩ ["x.wav"] =
      some ["d/x.wav"] ∧
    ¬ resolvedFiles ⟨"ref.wav", "d", [], "out", "24"⟩ ["x.wav"] =
        some (BatchMasterWorker.mk "ref.wav" "d" [] "out" "24").input_files := by
  decide

/-- C4 (amended): a non-empty explicit file list is used verbatim and the
directory is never scanned (the run is independent of the listing); an
empty list is treated as no list and resolution falls back to the directory
scan; the run handler passes a non-empty selection through verbatim with an
empty `input_dir`. -/
theorem c4_explicit_list_verbatim :
    (∀ (w : BatchMasterWorker) (listing : List String),
       w.input_files ≠ [] → resolvedFiles w listing = some w.input_files) ∧
    (∀ (cli : String) (w : BatchMasterWorker) (l1 l2 : List String)
       (oracle : Nat → RunOutcome),
       w.input_files ≠ [] →
       BatchMasterWorker.run cli w l1 oracle =
         BatchMasterWorker.run cli w l2 oracle) ∧
    (∀ (w : BatchMasterWorker) (listing : List String),
       w.input_files = [] → w.input_dir ≠ "" →
       resolvedFiles w listing =
         (if listing.filter isAudioName = [] then none
          else some ((listing.filter isAudioName).map (joinPath w.input_dir)))) ∧
    (∀ (ref inputText : String) (selFiles : List String)
       (outdir bit : String) (isdir exOut mkOk : Bool) (w : BatchMasterWorker),
       selFiles ≠ [] →
       MainWindow.run_batch_master ref inputText selFiles outdir bit
         isdir exOut mkOk = BatchAction.startWorker w →
       w.input_files = selFiles ∧ w.input_dir = "") := by
  refine ⟨?_, ?_, ?_, ?_⟩
  · intro w listing hne
    simp [resolvedFiles, hne]
  · intro cli w l1 l2 oracle hne
    simp [BatchMasterWorker.run, hne]
  · intro w listing h1 h2
    simp [resolvedFiles, h1, h2, List.map_eq_nil_iff]
  · intro ref inputText selFiles outdir bit isdir exOut mkOk w hne hrun
    simp only [MainWindow.run_batch_master, hne, ne_eq, not_false_eq_true,
      if_true] at hrun
    split_ifs at hrun <;> simp_all
    cases hrun
    exact ⟨rfl, rfl⟩

/-- C4 witness: a non-empty explicit list resolves to itself. -/
theorem c4_explicit_list_verbatim_witness :
    resolvedFiles ⟨"r", "d", ["a.wav"], "o", "24"⟩ ["x.wav"] =
      some (BatchMasterWorker.mk "r" "d" ["a.wav"] "o" "24").input_files :=
  c4_explicit_list_verbatim.1 ⟨"r", "d", ["a.wav"], "o", "24"⟩ ["x.wav"]
    (by decide)

/-- C5: when a batch resolves by directory scan, the resolved files are
exactly the listing entries whose lowercased name ends in one of `.wav`,
`.flac`, `.aiff`, `.mp3`, in listing order, each joined to the directory; a
folder listing `a.WAV`, `b.txt`, `c.flac` yields exactly the paths of
`a.WAV` and `c.flac`; and on an empty match the worker emits the
no-audio-files error and issues no external command. -/
theorem c5_directory_scan :
    (∀ (w : BatchMasterWorker) (listing : List String),
       w.input_files = [] → w.input_dir ≠ "" →
       resolvedFiles w listing =
         (if listing.filter isAudioName = [] then none
          else some ((listing.filter isAudioName).map (joinPath w.input_dir)))) ∧
    resolvedFiles ⟨"ref.wav", "d", [], "out", "24"⟩ ["a.WAV", "b.txt", "c.flac"] =
      some ["d/a.WAV", "d/c.flac"] ∧
    (∀ (cli : String) (w : BatchMasterWorker) (listing : List String)
       (oracle : Nat → RunOutcome),
       w.input_files = [] → w.input_dir ≠ "" →
       listing.filter isAudioName = [] →
       (BatchMasterWorker.run cli w listing oracle).2 = [] ∧
       (BatchMasterWorker.run cli w listing oracle).1 =
         [Event.error "No audio files found in the input folder.",
          Event.finished, Event.finished]) := by
  refine ⟨?_, by decide, ?_⟩
  · intro w listing h1 h2
    simp [resolvedFiles, h1, h2, List.map_eq_nil_iff]
  · intro cli w listing oracle h1 h2 h3
    constructor <;> simp [BatchMasterWorker.run, h1, h2, h3]

/-- C5 witness: the empty-scan behavior evaluated on a listing with no audio
entries. -/
theorem c5_directory_scan_witness :
    (BatchMasterWorker.run "mg" ⟨"r", "d", [], "o", "24"⟩ ["b.txt"]
        (fun _ => RunOutcome.ok)).2 = [] ∧
    (BatchMasterWorker.run "mg" ⟨"r", "d", [], "o", "24"⟩ ["b.txt"]
        (fun _ => RunOutcome.ok)).1 =
      [Event.error "No audio files found in the input folder.",
       Event.finished, Event.finished] :=
  c5_directory_scan.2.2 "mg" ⟨"r", "d", [], "o", "24"⟩ ["b.txt"]
    (fun _ => RunOutcome.ok) rfl (by decide) (by decide)

/-- C7: every command a batch run issues is built from a resolved input
file, and its final argument — the output path — is the configured output
directory joined with the input's basename stripped of its extension plus
" (Mastered).flac". -/
theorem c7_output_name_derivation (cli : String) (w : BatchMasterWorker)
    (listing : List String) (oracle : Nat → RunOutcome) (fs : List String)
    (h : resolvedFiles w listing = some fs) :
    ∀ cmd ∈ (BatchMasterWorker.run cli w listing oracle).2,
      ∃ inp ∈ fs, cmd = mkCommand cli w inp ∧
        cmd.getLast? = some (joinPath w.output_dir
          ((splitExt (basename inp)).1 ++ " (Mastered).flac")) := by
  intro cmd hcmd
  obtain ⟨m, hm⟩ := run_cmds cli w listing oracle
  rw [hm, h] at hcmd
  simp only [Option.getD_some] at hcmd
  obtain ⟨inp, hin, rfl⟩ := List.mem_map.mp hcmd
  exact ⟨inp, List.take_subset m fs hin, rfl, rfl⟩

/-- C7 witness: input `track1.wav` yields output `out/track1 (Mastered).flac`
as the last command argument. -/
theorem c7_output_name_derivation_witness :
    ∃ inp ∈ (["track1.wav"] : List String),
      mkCommand "mg" ⟨"r", "", ["track1.wav"], "out", "24"⟩ "track1.wav" =
        mkCommand "mg" ⟨"r", "", ["track1.wav"], "out", "24"⟩ inp ∧
      (mkCommand "mg" ⟨"r", "", ["track1.wav"], "out", "24"⟩ "track1.wav").getLast? =
        some (joinPath "out" ((splitExt (basename inp)).1 ++ " (Mastered).flac")) :=
  c7_output_name_derivation "mg" ⟨"r", "", ["track1.wav"], "out", "24"⟩ []
    (fun _ => RunOutcome.ok) ["track1.wav"] (by decide)
    (mkCommand "mg" ⟨"r", "", ["track1.wav"], "out", "24"⟩ "track1.wav")
    (by decide)

/-- C8: a bit-depth string other than "16", "24", "32" makes both run
handlers stop with a local warning — no worker is ever started — and
conversely any started worker carries one of the three accepted literals. -/
theorem c8_bit_depth_validation :
    (∀ (cli ref target output bit : String),
       bit ≠ "16" → bit ≠ "24" → bit ≠ "32" →
       (∀ cmd, MainWindow.run_single_master cli ref target output bit ≠
         SingleAction.startWorker cmd) ∧
       (∀ (inputText : String) (selFiles : List String)
          (outdir : String) (isdir exOut mkOk : Bool) (w : BatchMasterWorker),
          MainWindow.run_batch_master ref inputText selFiles outdir bit
            isdir exOut mkOk ≠ BatchAction.startWorker w)) ∧
    (∀ (cli ref target output bit : String) (cmd : List String),
       MainWindow.run_single_master cli ref target output bit =
         SingleAction.startWorker cmd →
       bit = "16" ∨ bit = "24" ∨ bit = "32") ∧
    (∀ (ref inputText : String) (selFiles : List String)
       (outdir bit : String) (isdir exOut mkOk : Bool) (w : BatchMasterWorker),
       MainWindow.run_batch_master ref inputText selFiles outdir bit
         isdir exOut mkOk = BatchAction.startWorker w →
       w.bit_depth = "16" ∨ w.bit_depth = "24" ∨ w.bit_depth = "32") := by
  refine ⟨?_, ?_, ?_⟩
  · intro cli ref target output bit h16 h24 h32
    constructor
    · intro cmd
      unfold MainWindow.run_single_master
      split_ifs with h1 h2 <;> simp_all
    · intro inputText selFiles outdir isdir exOut mkOk w
      unfold MainWindow.run_batch_master
      by_cases hs : selFiles = [] <;> cases isdir <;>
        simp_all <;> split_ifs <;> simp_all
  · intro cli ref target output bit cmd hrun
    unfold MainWindow.run_single_master at hrun
    split_ifs at hrun with h1 h2 <;> simp_all
    tauto
  · intro ref inputText selFiles outdir bit isdir exOut mkOk w hrun
    unfold MainWindow.run_batch_master at hrun
    by_cases hs : selFiles = [] <;> cases isdir <;>
      simp_all <;> split_ifs at hrun <;> simp_all <;>
      (try cases hrun) <;> tauto

/-- C8 witness: bit-depth "20" is rejected by the single handler. -/
theorem c8_bit_depth_validation_witness :
    MainWindow.run_single_master "cli" "r" "t" "o" "20" ≠
      SingleAction.startWorker ["x"] :=
  (c8_bit_depth_validation.1 "cli" "r" "t" "o" "20" (by decide) (by decide)
    (by decide)).1 ["x"]

/-- C9: every external invocation passes, after the interpreter and script
path, the arguments in the order `-b`, bit-depth, target/input path,
reference path, output path — in both single and batch mode. -/
theorem c9_argument_order :
    (∀ (cli ref target output bit : String) (cmd : List String),
       MainWindow.run_single_master cli ref target output bit =
         SingleAction.startWorker cmd →
       cmd = ["python3", cli, "-b", bit, target, ref, output]) ∧
    (∀ (cli : String) (w : BatchMasterWorker) (listing : List String)
       (oracle : Nat → RunOutcome),
       ∀ cmd ∈ (BatchMasterWorker.run cli w listing oracle).2,
         ∃ inp outp, cmd =
           ["python3", cli, "-b", w.bit_depth, inp, w.ref_file, outp]) := by
  constructor
  · intro cli ref target output bit cmd hrun
    unfold MainWindow.run_single_master at hrun
    split_ifs at hrun <;> simp_all
  · intro cli w listing oracle cmd hcmd
    obtain ⟨m, hm⟩ := run_cmds cli w listing oracle
    rw [hm] at hcmd
    obtain ⟨inp, hin, rfl⟩ := List.mem_map.mp hcmd
    exact ⟨inp, _, rfl⟩

/-- C9 witness: the one command of a concrete one-file batch run has the
claimed argument order. -/
theorem c9_argument_order_witness :
    ∃ inp outp, mkCommand "mg" ⟨"r", "", ["a.wav"], "o", "24"⟩ "a.wav" =
      ["python3", "mg", "-b", "24", inp, "r", outp] :=
  c9_argument_order.2 "mg" ⟨"r", "", ["a.wav"], "o", "24"⟩ []
    (fun _ => RunOutcome.ok)
    (mkCommand "mg" ⟨"r", "", ["a.wav"], "o", "24"⟩ "a.wav") (by decide)

end SMG
